import Mathlib

/-!
Verification development for the AsyncAgentic repository
(`src/AsyncAgentic/Agents/AsyncOpenAISimpleAgent.py` and
`src/AsyncAgentic/Utils/ContextHandler.py`).

The Python code is shallowly embedded as executable Lean definitions.
Asynchronous effects are rendered pure: a tool callable or a lifecycle hook
is a function returning `Except String _` (the `error` case standing for a
raised Python exception, carrying `str(e)`), and tool execution additionally
returns the ordered trace of lifecycle-hook events it fired, so that
"this phase ran" facts are observable.

`BaseAgent` (hook dispatcher `_trigger_hook`, cancellation monitor
`_run_with_stop_handler`, and the OpenAI `client`) is not part of the
repository snapshot under `src/`; those collaborators are modelled from the
spec where indicated and are environment fields of `Agent`.
-/

/-- Lifecycle hook event names (the closed set of the spec, section 4.4). -/
inductive HookEvent where
  | on_before_request
  | on_after_request
  | on_manual_stop
  | on_error
  | on_function_call_start
  | on_function_call_end
  | on_function_call_error
deriving DecidableEq, Repr

/-- Raw tool-call arguments as produced by the model backend:
`tool_call.function.arguments` is either a JSON text (`str`) or an
already-structured mapping (`obj`).  Structured argument values are kept as
strings; only key structure matters to the embedded code. -/
inductive RawArgs where
  | str (s : String)
  | obj (m : List (String × String))
deriving DecidableEq, Repr

/-- The `function` member of an OpenAI tool call. -/
structure ToolFunction where
  name : String
  arguments : RawArgs
deriving DecidableEq, Repr

/-- One tool-call request from the model backend. -/
structure ToolCall where
  id : String
  function : ToolFunction
deriving DecidableEq, Repr

/-- A registered tool: `{"name": ..., "func": ...}` of the tool registry.
The callable takes the merged keyword-argument mapping and either returns a
value or raises (error case).  The `function_schema` entry is only forwarded
to the backend and is not modelled. -/
structure Tool where
  name : String
  func : List (String × String) → Except String String

/-- A per-tool execution outcome dict:
`{"tool_call_id": ..., "name": ..., "result": ...}`. -/
structure ToolResult where
  tool_call_id : String
  name : String
  result : String
deriving DecidableEq, Repr

/-- A value stored in an embedded message dict: Python `None`, a string, or
a list of tool calls. -/
inductive V where
  | vNone
  | vStr (s : String)
  | vCalls (cs : List ToolCall)
deriving DecidableEq, Repr

/-- An embedded Python dict with string keys (used for messages). -/
abbrev PyDict := List (String × V)

/-- Python dict lookup `d[k]` / `d.get(k)` as an `Option`. -/
def dget (d : PyDict) (k : String) : Option V :=
  (d.find? (fun p => p.1 == k)).map Prod.snd

/-- Python truthiness of a dict value (`if msg.get("content"):`). -/
def V.truthy : V → Bool
  | V.vNone => false
  | V.vStr s => s ≠ ""
  | V.vCalls cs => !cs.isEmpty

/-- A caller-supplied history entry before validation: either not a dict at
all, or a dict. -/
inductive Entry where
  | notDict
  | dict (d : PyDict)
deriving DecidableEq, Repr

/-- One reply of the model backend (the shape of
`response.choices[0].message` plus usage; spec section 6). -/
structure ModelReply where
  content : Option String
  tool_calls : List ToolCall
  usage : String
deriving DecidableEq, Repr

/-- The agent together with its environment/collaborators.

Fields `trigger`, `jsonLoads`, `replies` and `stopFlag` model collaborators
whose code is not under `src/`:

* `trigger` — Modelled from the spec: `BaseAgent._trigger_hook` is not in
  the snapshot.  Spec section 4.4: callbacks run at the trigger point and "a
  callback's failure is not caught by the dispatcher — it propagates to the
  triggering call site".  So triggering an event either succeeds or raises.
  Hook payloads do not influence the orchestrator and are not modelled.
* `jsonLoads` — `json.loads` of the Python standard library, abstracted as
  a decoder from JSON text to a string-keyed mapping that may raise.
* `replies` — the OpenAI `client` (spec section 6): successive backend
  calls return successive entries; an exhausted oracle behaves as a
  faulting backend.
* `stopFlag` — the cancellation monitor's flag as read at the i-th
  suspension point of the turn (spec section 4.3). -/
structure Agent where
  agent_name : String
  user_id : String
  chat_id : String
  system_prompt : String
  tool_registry : List Tool
  execute_function_concurrently : Bool
  trigger : HookEvent → Except String Unit
  jsonLoads : String → Except String (List (String × String))
  replies : List (Except String ModelReply)
  stopFlag : Nat → Bool

/-- `self._tool_map.get(name)`: the dict comprehension
`{tool["name"]: tool for tool in self.tool_registry}` lets a later
registry entry with the same name overwrite an earlier one, hence the
lookup over the reversed registry. -/
def tool_map (env : Agent) (name : String) : Option Tool :=
  env.tool_registry.reverse.find? (fun t => t.name == name)

/-- Argument decoding inside `_execute_tool`:
`json.loads(tool_call.function.arguments)` when the raw value is a string,
identity otherwise. -/
def decode_arguments (jsonLoads : String → Except String (List (String × String))) :
    RawArgs → Except String (List (String × String))
  | RawArgs.str s => jsonLoads s
  | RawArgs.obj m => Except.ok m

/-- Python dict assignment `d[k] = v` semantics on an association list: an
existing binding keeps its position but gets the new value, a new key is
appended. -/
def dict_set (m : List (String × String)) (k v : String) : List (String × String) :=
  if m.any (fun p => p.1 == k) then
    m.map (fun p => if p.1 == k then (k, v) else p)
  else m ++ [(k, v)]

/-- Lookup in a string-valued argument mapping. -/
def arg_get (m : List (String × String)) (k : String) : Option String :=
  (m.find? (fun p => p.1 == k)).map Prod.snd

/-- The kwargs merge of `_execute_tool`:
`args = {**arguments, "user_id": self.user_id, "chat_id": self.chat_id,
"agent_name": self.agent_name}`. -/
def merge_args (env : Agent) (arguments : List (String × String)) :
    List (String × String) :=
  dict_set (dict_set (dict_set arguments "user_id" env.user_id)
      "chat_id" env.chat_id) "agent_name" env.agent_name

/-- The pure part of `_execute_tool`'s `try` block before the
`on_function_call_end` hook: decode the raw arguments, merge in the agent's
contextual identifiers, and invoke the tool's callable. -/
def tool_attempt (env : Agent) (tool : Tool) (tc : ToolCall) : Except String String := do
  let arguments ← decode_arguments env.jsonLoads tc.function.arguments
  tool.func (merge_args env arguments)

/-- `_execute_tool`, with the ordered trace of hook events it fired.

Mirrors the Python control flow exactly: `on_function_call_start` fires
before the `try` block (its failure propagates); inside the `try`, a decode
failure, a callable failure, or a failure of the `on_function_call_end`
hook all fall to the `except` clause, which fires `on_function_call_error`
(whose own failure propagates) and returns a ToolResult carrying `str(e)`. -/
def execute_tool_traced (env : Agent) (tool : Tool) (tc : ToolCall) :
    List HookEvent × Except String ToolResult :=
  match env.trigger HookEvent.on_function_call_start with
  | Except.error e => ([HookEvent.on_function_call_start], Except.error e)
  | Except.ok _ =>
    match tool_attempt env tool tc with
    | Except.ok v =>
      match env.trigger HookEvent.on_function_call_end with
      | Except.ok _ =>
          ([HookEvent.on_function_call_start, HookEvent.on_function_call_end],
           Except.ok { tool_call_id := tc.id, name := tc.function.name, result := v })
      | Except.error e =>
        match env.trigger HookEvent.on_function_call_error with
        | Except.ok _ =>
            ([HookEvent.on_function_call_start, HookEvent.on_function_call_end,
              HookEvent.on_function_call_error],
             Except.ok { tool_call_id := tc.id, name := tc.function.name, result := e })
        | Except.error e2 =>
            ([HookEvent.on_function_call_start, HookEvent.on_function_call_end,
              HookEvent.on_function_call_error],
             Except.error e2)
    | Except.error e =>
      match env.trigger HookEvent.on_function_call_error with
      | Except.ok _ =>
          ([HookEvent.on_function_call_start, HookEvent.on_function_call_error],
           Except.ok { tool_call_id := tc.id, name := tc.function.name, result := e })
      | Except.error e2 =>
          ([HookEvent.on_function_call_start, HookEvent.on_function_call_error],
           Except.error e2)

/-- `_execute_tool`'s returned value (or raised exception). -/
def execute_tool (env : Agent) (tool : Tool) (tc : ToolCall) : Except String ToolResult :=
  (execute_tool_traced env tool tc).2

/-- `isinstance(r, Exception)` over a gathered task outcome. -/
def is_exception : Except String ToolResult → Bool
  | Except.error _ => true
  | Except.ok _ => false

/-- The resolved `(tool, request)` pairs of a batch, in request order:
`_tool_map.get(name)` lookups that succeed. -/
def resolved_pairs (env : Agent) (tcs : List ToolCall) : List (Tool × ToolCall) :=
  tcs.filterMap (fun tc => (tool_map env tc.function.name).map (fun t => (t, tc)))

/-- `asyncio.gather(*tasks, return_exceptions=True)`: every launched task
runs to completion (nothing is cancelled on a sibling's fault), outcomes are
delivered in task-creation order, and exceptions are returned as values.
The trace is the tasks' hook traces; the request-order concatenation is one
linearization of the concurrent interleaving, and only trace membership per
task is used in theorems. -/
def gather_traced (env : Agent) (tcs : List ToolCall) :
    List HookEvent × List (Except String ToolResult) :=
  let tasks := (resolved_pairs env tcs).map (fun p => execute_tool_traced env p.1 p.2)
  ((tasks.map Prod.fst).flatten, tasks.map Prod.snd)

/-- `_execute_tools_concurrent`, traced: gather all task outcomes, then
re-raise the first outcome that is an exception, else return the results. -/
def execute_tools_concurrent_traced (env : Agent) (tcs : List ToolCall) :
    List HookEvent × Except String (List ToolResult) :=
  let g := gather_traced env tcs
  match g.2.find? is_exception with
  | some (Except.error e) => (g.1, Except.error e)
  | _ => (g.1, Except.ok (g.2.filterMap Except.toOption))

/-- `_execute_tools_concurrent`'s returned value (or raised exception). -/
def execute_tools_concurrent (env : Agent) (tcs : List ToolCall) :
    Except String (List ToolResult) :=
  (execute_tools_concurrent_traced env tcs).2

/-- `_execute_tools_sequential`, traced: resolved calls run one at a time in
request order; an exception raised by `_execute_tool` propagates at once and
later calls never run.  (`if result:` is always true — the returned dict is
non-empty — so every produced result is appended.) -/
def execute_tools_sequential_traced (env : Agent) :
    List ToolCall → List HookEvent × Except String (List ToolResult)
  | [] => ([], Except.ok [])
  | tc :: rest =>
    match tool_map env tc.function.name with
    | none => execute_tools_sequential_traced env rest
    | some tool =>
      match execute_tool_traced env tool tc with
      | (tr, Except.error e) => (tr, Except.error e)
      | (tr, Except.ok r) =>
        let s := execute_tools_sequential_traced env rest
        (tr ++ s.1, s.2.map (fun rs => r :: rs))

/-- `_execute_tools_sequential`'s returned value (or raised exception). -/
def execute_tools_sequential (env : Agent) (tcs : List ToolCall) :
    Except String (List ToolResult) :=
  (execute_tools_sequential_traced env tcs).2

/-- The user message dict appended by `send_message`. -/
def mkUser (message : String) : PyDict :=
  [("role", V.vStr "user"), ("content", V.vStr message)]

/-- The system message dict built by `_prepare_messages`. -/
def mkSystem (system_prompt : String) : PyDict :=
  [("role", V.vStr "system"), ("content", V.vStr system_prompt)]

/-- Python `None`-or-string content as a dict value. -/
def contentV : Option String → V
  | none => V.vNone
  | some s => V.vStr s

/-- The assistant message dict of `send_message`: the `tool_calls` key is
added only when `response.choices[0].message.tool_calls` is truthy
(non-empty). -/
def mkAssistant (content : Option String) (tcs : List ToolCall) : PyDict :=
  if tcs.isEmpty then
    [("role", V.vStr "assistant"), ("content", contentV content)]
  else
    [("role", V.vStr "assistant"), ("content", contentV content),
     ("tool_calls", V.vCalls tcs)]

/-- The tool message dict appended per ToolResult
(`content = str(result["result"])`). -/
def mkToolMsg (r : ToolResult) : PyDict :=
  [("role", V.vStr "tool"), ("tool_call_id", V.vStr r.tool_call_id),
   ("content", V.vStr r.result)]

/-- The per-entry loop of `_validate_history`: the first entry that is not a
dict, lacks `role`, or lacks `content` raises; otherwise the entries (all
dicts) are returned. -/
def validate_entries : List Entry → Except String (List PyDict)
  | [] => Except.ok []
  | Entry.notDict :: _ => Except.error "History messages must be dictionaries"
  | Entry.dict d :: rest =>
    if (dget d "role").isNone then
      Except.error "History messages must have 'role' field"
    else if (dget d "content").isNone then
      Except.error "History messages must have 'content' field"
    else (validate_entries rest).map (fun ds => d :: ds)

/-- `_validate_history`: `None` and `[]` are both falsy and yield `[]`;
otherwise every entry is checked and a (shallow) copy is returned. -/
def validate_history : Option (List Entry) → Except String (List PyDict)
  | none => Except.ok []
  | some hs => validate_entries hs

/-- Python `d[k]` with its `KeyError`. -/
def dict_item (d : PyDict) (k : String) : Except String V :=
  match dget d k with
  | some v => Except.ok v
  | none => Except.error ("KeyError: " ++ k)

/-- `_prepare_messages`: system message first unless the (non-empty) history
already starts with one; then the history; then the user message unless the
last history entry's `content` already equals it. -/
def prepare_messages (system_prompt message : String) (history : List PyDict) :
    Except String (List PyDict) := do
  let sysPart ←
    match history with
    | [] => pure [mkSystem system_prompt]
    | h0 :: _ => do
      let r ← dict_item h0 "role"
      pure (if r ≠ V.vStr "system" then [mkSystem system_prompt] else [])
  let userPart ←
    match history.getLast? with
    | none => pure [mkUser message]
    | some hl => do
      let c ← dict_item hl "content"
      pure (if c ≠ V.vStr message then [mkUser message] else [])
  pure (sysPart ++ history ++ userPart)

/-- The filter of `_format_response`: keep user messages as they are and
assistant messages with truthy `content` as `{"role", "content"}` dicts. -/
def clean_history : List PyDict → List PyDict
  | [] => []
  | m :: rest =>
    if dget m "role" = some (V.vStr "user") then m :: clean_history rest
    else if dget m "role" = some (V.vStr "assistant") then
      match dget m "content" with
      | some c =>
        if c.truthy then
          [("role", V.vStr "assistant"), ("content", c)] :: clean_history rest
        else clean_history rest
      | none => clean_history rest
    else clean_history rest

/-- The structured turn result built by `_format_response`.  `output` and
`usage` are `none` exactly when the `response` argument was `None`; the
wall-clock `timestamp` field is not modelled. -/
structure TurnResult where
  stop_reason : String
  messages : List PyDict
  simplified : List PyDict
  agent_name : String
  output : Option (Option String)
  usage : Option String
deriving DecidableEq, Repr

/-- Mutable per-agent state threaded through a turn: `self._message_history`
plus two instrumentation counters — how many backend calls were issued and
how many cancellation-monitor suspension points were passed. -/
structure AState where
  message_history : List PyDict
  backendCalls : Nat
  checkpoint : Nat
deriving DecidableEq, Repr

/-- `_format_response`. -/
def format_response (env : Agent) (st : AState) (response : Option ModelReply)
    (stop_reason : String) : TurnResult :=
  { stop_reason := stop_reason
    messages := st.message_history
    simplified := clean_history st.message_history
    agent_name := env.agent_name
    output := response.map (fun r => r.content)
    usage := response.map (fun r => r.usage) }

/-- Modelled from the spec: `BaseAgent._run_with_stop_handler` and the
cancellation monitor are not under `src/`.  Spec section 4.3: the monitor
"is consulted by the Orchestrator at exactly two suspension points per
round: immediately after the model-backend call returns, and immediately
after the tool-dispatch phase returns", and "it never preempts work already
in flight".  So the wrapped phase's outcome is computed first and the stop
flag is then read at the current suspension point. -/
def stop_check (env : Agent) (st : AState) : Bool × AState :=
  (env.stopFlag st.checkpoint, { st with checkpoint := st.checkpoint + 1 })

/-- The `while True:` loop of `send_message`, one recursive step per model
round, consuming the backend oracle.  Per round: backend call (a backend
fault propagates), stop check (on stop: `on_manual_stop` hook, then a
`manual_stop` result from the completed reply), append the assistant
message, terminate when the reply carries no tool calls (`on_after_request`
hook, `completed` result), otherwise dispatch the tool calls (concurrently
or sequentially per configuration), stop check (on stop: `manual_stop`
result, tool results discarded), append one tool message per ToolResult and
loop. -/
def run_loop (env : Agent) (replies : List (Except String ModelReply))
    (messages : List PyDict) (st : AState) : AState × Except String TurnResult :=
  match replies with
  | [] => (st, Except.error "model backend oracle exhausted")
  | rep :: rest =>
    let st1 : AState := { st with backendCalls := st.backendCalls + 1 }
    match rep with
    | Except.error e => (st1, Except.error e)
    | Except.ok response =>
      let c1 := stop_check env st1
      if c1.1 then
        match env.trigger HookEvent.on_manual_stop with
        | Except.error e => (c1.2, Except.error e)
        | Except.ok _ =>
          (c1.2, Except.ok (format_response env c1.2 (some response) "manual_stop"))
      else
        let assistant := mkAssistant response.content response.tool_calls
        let st2 : AState :=
          { c1.2 with message_history := c1.2.message_history ++ [assistant] }
        let messages2 := messages ++ [assistant]
        if response.tool_calls.isEmpty then
          match env.trigger HookEvent.on_after_request with
          | Except.error e => (st2, Except.error e)
          | Except.ok _ =>
            (st2, Except.ok (format_response env st2 (some response) "completed"))
        else
          let dispatched :=
            if env.execute_function_concurrently then
              execute_tools_concurrent env response.tool_calls
            else
              execute_tools_sequential env response.tool_calls
          match dispatched with
          | Except.error e => (st2, Except.error e)
          | Except.ok tool_results =>
            let c2 := stop_check env st2
            if c2.1 then
              (c2.2, Except.ok (format_response env c2.2 (some response) "manual_stop"))
            else
              let toolMsgs := tool_results.map mkToolMsg
              let st3 : AState :=
                { c2.2 with message_history := c2.2.message_history ++ toolMsgs }
              run_loop env rest (messages2 ++ toolMsgs) st3

/-- `send_message`.  The body: validate the supplied history (a failure
raises before any state change), install it as `self._message_history`,
append the user message, fire `on_before_request`, build the outbound
message list, and enter the round loop.  The surrounding
`try/except`: any raised error fires `on_error` and is re-raised (a failure
of the `on_error` hook itself replaces the original error). -/
def send_message (env : Agent) (message : String) (history : Option (List Entry))
    (st0 : AState) : AState × Except String TurnResult :=
  let body : AState × Except String TurnResult :=
    match validate_history history with
    | Except.error e => (st0, Except.error e)
    | Except.ok safe =>
      let st1 : AState := { st0 with message_history := safe ++ [mkUser message] }
      match env.trigger HookEvent.on_before_request with
      | Except.error e => (st1, Except.error e)
      | Except.ok _ =>
        match prepare_messages env.system_prompt message st1.message_history with
        | Except.error e => (st1, Except.error e)
        | Except.ok messages => run_loop env env.replies messages st1
  match body with
  | (st, Except.ok tr) => (st, Except.ok tr)
  | (st, Except.error e) =>
    match env.trigger HookEvent.on_error with
    | Except.ok _ => (st, Except.error e)
    | Except.error e2 => (st, Except.error e2)

/-- A Python number as returned by the token counters: `int` or `float`.
Results of `/ 4` are exactly representable in a binary float, so the float
payload is kept as a rational. -/
inductive PyNum where
  | int (n : Int)
  | float (q : Rat)
deriving DecidableEq, Repr

/-- Whether a Python value is an `int` (`isinstance(x, int)`;
`1.0` is not an `int`). -/
def PyNum.isInt : PyNum → Bool
  | PyNum.int _ => true
  | PyNum.float _ => false

/-- The `tiktoken` library at its interface: both operations return an
encoder (taken as text → token count) or raise, a raised `KeyError` being
distinguished because `get_accurate_token_count` catches exactly it from
`encoding_for_model`. -/
inductive TkFail where
  | keyError (s : String)
  | otherError (s : String)
deriving DecidableEq, Repr

structure Tiktoken where
  encoding_for_model : String → Except TkFail (String → Nat)
  get_encoding : String → Except TkFail (String → Nat)

/-- `get_simple_token_count`: `len(message) / 4` — Python 3 true division,
which returns a `float`. -/
def get_simple_token_count (message : String) : PyNum :=
  PyNum.float ((message.length : Rat) / 4)

/-- `get_accurate_token_count`: resolve an encoding for the model, falling
back to `get_encoding("gpt-4o")` on `KeyError`; if resolution raises in any
other way the function returns `len(message) / 4` (a `float`), otherwise
`len(encoding.encode(message))` (an `int`). -/
def get_accurate_token_count (tk : Tiktoken) (message model : String) : PyNum :=
  match tk.encoding_for_model model with
  | Except.ok enc => PyNum.int (enc message)
  | Except.error (TkFail.keyError _) =>
    match tk.get_encoding "gpt-4o" with
    | Except.ok enc => PyNum.int (enc message)
    | Except.error _ => PyNum.float ((message.length : Rat) / 4)
  | Except.error (TkFail.otherError _) => PyNum.float ((message.length : Rat) / 4)

/-- The ToolResult that `_execute_tool` produces for a resolved call when no
lifecycle hook faults: the callable's value on success, `str(e)` on a decode
or callable failure. -/
def tool_result_of (env : Agent) (tool : Tool) (tc : ToolCall) : ToolResult :=
  match tool_attempt env tool tc with
  | Except.ok v => { tool_call_id := tc.id, name := tc.function.name, result := v }
  | Except.error e => { tool_call_id := tc.id, name := tc.function.name, result := e }

/-- The batch outcome for fault-free hooks: one ToolResult per resolved
request, in request order. -/
def results_of (env : Agent) (tcs : List ToolCall) : List ToolResult :=
  tcs.filterMap (fun tc =>
    (tool_map env tc.function.name).map (fun t => tool_result_of env t tc))

/-- No registered lifecycle callback faults. -/
def hooks_ok (env : Agent) : Prop := ∀ ev, env.trigger ev = Except.ok ()

/-- A history entry `_validate_history` rejects: not a dict, or missing
`role` or `content`. -/
def bad_entry : Entry → Bool
  | Entry.notDict => true
  | Entry.dict d => (dget d "role").isNone || (dget d "content").isNone

/-- Base concrete agent used by the witnesses: no tools, fault-free hooks,
a JSON decoder that always fails (no call below feeds it string arguments
unless stated), no backend replies, stop never requested. -/
def baseAgent : Agent :=
  { agent_name := "Test_Agent"
    user_id := "test_user"
    chat_id := "test_chat"
    system_prompt := "You are a helpful assistant"
    tool_registry := []
    execute_function_concurrently := true
    trigger := fun _ => Except.ok ()
    jsonLoads := fun _ => Except.error "Expecting value: line 1 column 1 (char 0)"
    replies := []
    stopFlag := fun _ => false }

/-- A deterministic tool that succeeds. -/
def timeTool : Tool :=
  { name := "get_current_time", func := fun _ => Except.ok "12:00:00" }

/-- A deterministic tool whose callable always raises. -/
def failTool : Tool :=
  { name := "boom_tool", func := fun _ => Except.error "division by zero" }

def tcTime : ToolCall :=
  { id := "call_1", function := { name := "get_current_time", arguments := RawArgs.obj [] } }

def tcTime2 : ToolCall :=
  { id := "call_2", function := { name := "get_current_time", arguments := RawArgs.obj [] } }

def tcUnknown : ToolCall :=
  { id := "call_3", function := { name := "get_weather", arguments := RawArgs.obj [] } }

def tcBoom : ToolCall :=
  { id := "call_4", function := { name := "boom_tool", arguments := RawArgs.obj [] } }

/-- A tool call whose model-produced arguments try to spoof the agent's
contextual identifiers. -/
def tcSpoof : ToolCall :=
  { id := "call_5"
    function :=
      { name := "get_current_time"
        arguments := RawArgs.obj
          [("user_id", "evil"), ("chat_id", "evil2"), ("agent_name", "evil3"),
           ("city", "Tokyo")] } }

/-- Concrete agent with both tools registered. -/
def envTools : Agent := { baseAgent with tool_registry := [timeTool, failTool] }

/-- Agent whose `on_function_call_start` hook faults. -/
def envStartFault : Agent :=
  { envTools with
    trigger := fun ev =>
      if ev = HookEvent.on_function_call_start then Except.error "start hook boom"
      else Except.ok () }

/-- Agent whose `on_function_call_error` hook faults. -/
def envErrHookFault : Agent :=
  { envTools with
    trigger := fun ev =>
      if ev = HookEvent.on_function_call_error then Except.error "error hook boom"
      else Except.ok () }

/-- Agent whose `on_function_call_end` hook faults. -/
def envHookEndFault : Agent :=
  { envTools with
    trigger := fun ev =>
      if ev = HookEvent.on_function_call_end then Except.error "end hook boom"
      else Except.ok () }

/-- Agent whose backend replies once with a tool call and whose operator
requests a stop between the first and the second suspension point. -/
def envC5 : Agent :=
  { baseAgent with
    tool_registry := [timeTool]
    replies := [Except.ok { content := some "let me check", tool_calls := [tcTime], usage := "usage_blob" }]
    stopFlag := fun i => i == 1 }

/-- A malformed supplied history: the single entry lacks `content`. -/
def histMissingContent : List Entry :=
  [Entry.dict [("role", V.vStr "user")]]

/-- A tiktoken environment in which no exact tokenizer is available (every
resolution attempt raises a non-`KeyError` fault). -/
def tkUnavailable : Tiktoken :=
  { encoding_for_model := fun _ => Except.error (TkFail.otherError "tokenizer unavailable")
    get_encoding := fun _ => Except.error (TkFail.otherError "tokenizer unavailable") }

theorem tool_result_of_id (env : Agent) (tool : Tool) (tc : ToolCall) :
    (tool_result_of env tool tc).tool_call_id = tc.id := by
  unfold tool_result_of
  cases tool_attempt env tool tc <;> rfl

theorem execute_tool_hooks_ok (env : Agent) (tool : Tool) (tc : ToolCall)
    (h : hooks_ok env) :
    execute_tool env tool tc = Except.ok (tool_result_of env tool tc) := by
  unfold execute_tool execute_tool_traced tool_result_of
  rw [h HookEvent.on_function_call_start]
  cases htc : tool_attempt env tool tc with
  | ok v => rw [h HookEvent.on_function_call_end]
  | error e => rw [h HookEvent.on_function_call_error]

theorem results_of_nil (env : Agent) : results_of env [] = [] := rfl

theorem results_of_cons_none (env : Agent) (tc : ToolCall) (rest : List ToolCall)
    (htm : tool_map env tc.function.name = none) :
    results_of env (tc :: rest) = results_of env rest := by
  simp [results_of, htm]

theorem results_of_cons_some (env : Agent) (tc : ToolCall) (rest : List ToolCall)
    (tool : Tool) (htm : tool_map env tc.function.name = some tool) :
    results_of env (tc :: rest) = tool_result_of env tool tc :: results_of env rest := by
  simp [results_of, htm]

theorem sequential_hooks_ok (env : Agent) (h : hooks_ok env) (tcs : List ToolCall) :
    execute_tools_sequential env tcs = Except.ok (results_of env tcs) := by
  induction tcs with
  | nil => rfl
  | cons tc rest ih =>
    unfold execute_tools_sequential at ih ⊢
    unfold execute_tools_sequential_traced
    cases htm : tool_map env tc.function.name with
    | none => rw [results_of_cons_none env tc rest htm]; exact ih
    | some tool =>
      rw [results_of_cons_some env tc rest tool htm]
      have hr := execute_tool_hooks_ok env tool tc h
      unfold execute_tool at hr
      rcases hpair : execute_tool_traced env tool tc with ⟨tr, r⟩
      rw [hpair] at hr
      simp only at hr
      subst hr
      simp only [hpair, ih]
      rfl

theorem resolved_pairs_nil (env : Agent) : resolved_pairs env [] = [] := rfl

theorem results_of_eq_map (env : Agent) (tcs : List ToolCall) :
    results_of env tcs = (resolved_pairs env tcs).map (fun p => tool_result_of env p.1 p.2) := by
  induction tcs with
  | nil => rfl
  | cons tc rest ih =>
    cases htm : tool_map env tc.function.name with
    | none => simp [results_of, resolved_pairs, htm] at ih ⊢; exact ih
    | some tool => simp [results_of, resolved_pairs, htm] at ih ⊢; exact ih

theorem gather_snd_hooks_ok (env : Agent) (h : hooks_ok env) (tcs : List ToolCall) :
    (gather_traced env tcs).2 = (results_of env tcs).map Except.ok := by
  have hmap : ∀ p : Tool × ToolCall,
      (execute_tool_traced env p.1 p.2).2 = Except.ok (tool_result_of env p.1 p.2) := by
    intro p; exact execute_tool_hooks_ok env p.1 p.2 h
  simp only [gather_traced, List.map_map, results_of_eq_map]
  apply List.map_congr_left
  intro p _
  simp only [Function.comp_apply]
  exact hmap p

theorem filterMap_toOption_map_ok (rs : List ToolResult) :
    List.filterMap Except.toOption (rs.map (Except.ok (ε := String))) = rs := by
  induction rs with
  | nil => rfl
  | cons r rest ih => simp [Except.toOption, ih]

theorem concurrent_hooks_ok (env : Agent) (h : hooks_ok env) (tcs : List ToolCall) :
    execute_tools_concurrent env tcs = Except.ok (results_of env tcs) := by
  have hg := gather_snd_hooks_ok env h tcs
  have hfind : ((results_of env tcs).map Except.ok).find? is_exception = none := by
    rw [List.find?_eq_none]
    intro x hx
    rcases List.mem_map.mp hx with ⟨r, _, rfl⟩
    simp [is_exception]
  simp only [execute_tools_concurrent, execute_tools_concurrent_traced]
  rw [hg, hfind, filterMap_toOption_map_ok]

theorem results_of_ids (env : Agent) : ∀ tcs : List ToolCall,
    (∀ tc ∈ tcs, (tool_map env tc.function.name).isSome = true) →
    (results_of env tcs).map (fun r => r.tool_call_id) = tcs.map (fun tc => tc.id)
  | [], _ => rfl
  | tc :: rest, hreg => by
    have hhead := hreg tc (List.mem_cons_self tc rest)
    rcases Option.isSome_iff_exists.mp hhead with ⟨tool, htm⟩
    rw [results_of_cons_some env tc rest tool htm]
    have htail := results_of_ids env rest (fun c hc => hreg c (List.mem_cons_of_mem tc hc))
    simp [htail, tool_result_of_id]

/-- C1: for a batch of tool-call requests whose tools are all registered
(and with fault-free hooks, the embedded tools being deterministic
functions), concurrent dispatch and sequential dispatch return the same
ToolResult sequence, and that sequence is ordered by the original request
order (the i-th result answers the i-th request). -/
theorem concurrent_matches_sequential (env : Agent) (tcs : List ToolCall)
    (hhooks : hooks_ok env)
    (hreg : ∀ tc ∈ tcs, (tool_map env tc.function.name).isSome = true) :
    execute_tools_concurrent env tcs = execute_tools_sequential env tcs ∧
    ∃ rs, execute_tools_concurrent env tcs = Except.ok rs ∧
      rs.map (fun r => r.tool_call_id) = tcs.map (fun tc => tc.id) := by
  refine ⟨?_, results_of env tcs, concurrent_hooks_ok env hhooks tcs, ?_⟩
  · rw [concurrent_hooks_ok env hhooks tcs, sequential_hooks_ok env hhooks tcs]
  · exact results_of_ids env tcs hreg

theorem concurrent_matches_sequential_witness :
    execute_tools_concurrent envTools [tcTime, tcBoom, tcTime2] =
      execute_tools_sequential envTools [tcTime, tcBoom, tcTime2] ∧
    ∃ rs, execute_tools_concurrent envTools [tcTime, tcBoom, tcTime2] = Except.ok rs ∧
      rs.map (fun r => r.tool_call_id) =
        [tcTime, tcBoom, tcTime2].map (fun tc => tc.id) :=
  concurrent_matches_sequential envTools [tcTime, tcBoom, tcTime2]
    (fun _ => rfl) (by decide)

/-- C2: for a resolved tool call whose argument decoding or callable fails
(hooks fault-free), `_execute_tool` returns — not raises — a ToolResult
with the request's `tool_call_id` and name whose value is the error's
description, and sequential dispatch of the remaining batch still completes
with one result per resolved remaining request. -/
theorem tool_failure_absorbed (env : Agent) (tool : Tool) (tc : ToolCall)
    (e : String) (rest : List ToolCall)
    (hhooks : hooks_ok env)
    (htm : tool_map env tc.function.name = some tool)
    (hfail : tool_attempt env tool tc = Except.error e) :
    execute_tool env tool tc =
      Except.ok { tool_call_id := tc.id, name := tc.function.name, result := e } ∧
    ∃ rs, execute_tools_sequential env (tc :: rest) =
        Except.ok ({ tool_call_id := tc.id, name := tc.function.name, result := e } :: rs) ∧
      rs.length = (rest.filter (fun c => (tool_map env c.function.name).isSome)).length := by
  have hres : tool_result_of env tool tc =
      { tool_call_id := tc.id, name := tc.function.name, result := e } := by
    unfold tool_result_of
    rw [hfail]
  have h1 := execute_tool_hooks_ok env tool tc hhooks
  rw [hres] at h1
  refine ⟨h1, results_of env rest, ?_, ?_⟩
  · rw [sequential_hooks_ok env hhooks (tc :: rest),
      results_of_cons_some env tc rest tool htm, hres]
  · induction rest with
    | nil => rfl
    | cons c cs ih =>
      cases hc : tool_map env c.function.name with
      | none => simpa [results_of_cons_none env c cs hc, hc] using ih
      | some t => simpa [results_of_cons_some env c cs t hc, hc] using ih

theorem tool_failure_absorbed_witness :
    execute_tool envTools failTool tcBoom =
      Except.ok { tool_call_id := "call_4", name := "boom_tool", result := "division by zero" } ∧
    ∃ rs, execute_tools_sequential envTools (tcBoom :: [tcTime, tcUnknown]) =
        Except.ok ({ tool_call_id := "call_4", name := "boom_tool", result := "division by zero" } :: rs) ∧
      rs.length =
        ([tcTime, tcUnknown].filter
          (fun c => (tool_map envTools c.function.name).isSome)).length :=
  tool_failure_absorbed envTools failTool tcBoom "division by zero" [tcTime, tcUnknown]
    (fun _ => rfl) rfl rfl

theorem find?_first_error (e : String) (rs₂ : List (Except String ToolResult)) :
    ∀ rs₁ : List (Except String ToolResult), (∀ r ∈ rs₁, is_exception r = false) →
    (rs₁ ++ Except.error e :: rs₂).find? is_exception = some (Except.error e)
  | [], _ => by simp [List.find?, is_exception]
  | r :: rest, h => by
    have hr := h r (List.mem_cons_self r rest)
    simp only [List.cons_append, List.find?_cons, hr]
    exact find?_first_error e rs₂ rest (fun x hx => h x (List.mem_cons_of_mem r hx))

/-- C6: in concurrent dispatch, when some launched task surfaces an uncaught
fault (an outcome `gather` delivers as an exception value), the dispatcher
propagates exactly the first such fault in request order, discarding the
sibling results (the batch yields `error`, not a result list) — and every
launched task still ran to completion: each resolved call's full hook trace
occurs inside the dispatch phase's trace. -/
theorem concurrent_first_fault (env : Agent) (tcs : List ToolCall)
    (rs₁ rs₂ : List (Except String ToolResult)) (e : String)
    (hsplit : (gather_traced env tcs).2 = rs₁ ++ Except.error e :: rs₂)
    (hok : ∀ r ∈ rs₁, is_exception r = false) :
    execute_tools_concurrent env tcs = Except.error e ∧
    ∀ p ∈ resolved_pairs env tcs,
      ((execute_tool_traced env p.1 p.2).1).Sublist
        (execute_tools_concurrent_traced env tcs).1 := by
  constructor
  · simp only [execute_tools_concurrent, execute_tools_concurrent_traced]
    rw [hsplit, find?_first_error e rs₂ rs₁ hok]
  · intro p hp
    have htr : (execute_tools_concurrent_traced env tcs).1 = (gather_traced env tcs).1 := by
      simp only [execute_tools_concurrent_traced]
      cases hf : (gather_traced env tcs).2.find? is_exception with
      | none => rfl
      | some r => cases r <;> rfl
    rw [htr]
    simp only [gather_traced, List.map_map]
    exact List.sublist_flatten_of_mem
      (List.mem_map_of_mem (Prod.fst ∘ fun q => execute_tool_traced env q.1 q.2) hp)

theorem concurrent_first_fault_witness :
    execute_tools_concurrent envStartFault [tcTime, tcBoom] = Except.error "start hook boom" ∧
    ∀ p ∈ resolved_pairs envStartFault [tcTime, tcBoom],
      ((execute_tool_traced envStartFault p.1 p.2).1).Sublist
        (execute_tools_concurrent_traced envStartFault [tcTime, tcBoom]).1 :=
  concurrent_first_fault envStartFault [tcTime, tcBoom]
    [] [Except.error "start hook boom"] "start hook boom" rfl
    (fun r hr => absurd hr (List.not_mem_nil r))

theorem seq_traced_cons (env : Agent) (tc : ToolCall) (rest : List ToolCall) :
    execute_tools_sequential_traced env (tc :: rest) =
      match tool_map env tc.function.name with
      | none => execute_tools_sequential_traced env rest
      | some tool =>
        match execute_tool_traced env tool tc with
        | (tr, Except.error e) => (tr, Except.error e)
        | (tr, Except.ok r) =>
          let s := execute_tools_sequential_traced env rest
          (tr ++ s.1, Except.map (fun rs => r :: rs) s.2) := rfl

theorem sequential_traced_skip (env : Agent) : ∀ tcs : List ToolCall,
    execute_tools_sequential_traced env tcs =
      execute_tools_sequential_traced env
        (tcs.filter (fun c => (tool_map env c.function.name).isSome))
  | [] => rfl
  | tc :: rest => by
    cases htm : tool_map env tc.function.name with
    | none =>
      have hfilt : (tc :: rest).filter (fun c => (tool_map env c.function.name).isSome) =
          rest.filter (fun c => (tool_map env c.function.name).isSome) := by
        simp [List.filter_cons, htm]
      rw [hfilt, seq_traced_cons env tc rest, htm]
      exact sequential_traced_skip env rest
    | some tool =>
      have hfilt : (tc :: rest).filter (fun c => (tool_map env c.function.name).isSome) =
          tc :: rest.filter (fun c => (tool_map env c.function.name).isSome) := by
        simp [List.filter_cons, htm]
      rw [hfilt, seq_traced_cons env tc rest,
        seq_traced_cons env tc
          (rest.filter (fun c => (tool_map env c.function.name).isSome)),
        htm, sequential_traced_skip env rest]

theorem resolved_pairs_filter (env : Agent) : ∀ tcs : List ToolCall,
    resolved_pairs env (tcs.filter (fun c => (tool_map env c.function.name).isSome)) =
      resolved_pairs env tcs
  | [] => rfl
  | tc :: rest => by
    cases htm : tool_map env tc.function.name with
    | none =>
      simp only [List.filter_cons, htm, Option.isSome_none, Bool.false_eq_true, if_false]
      rw [resolved_pairs_filter env rest]
      simp [resolved_pairs, htm]
    | some tool =>
      simp only [List.filter_cons, htm, Option.isSome_some, if_true]
      simp only [resolved_pairs, List.filterMap_cons, htm]
      have := resolved_pairs_filter env rest
      simp only [resolved_pairs] at this
      rw [this]

theorem results_of_filter (env : Agent) : ∀ tcs : List ToolCall,
    results_of env (tcs.filter (fun c => (tool_map env c.function.name).isSome)) =
      results_of env tcs
  | [] => rfl
  | tc :: rest => by
    cases htm : tool_map env tc.function.name with
    | none =>
      simp only [List.filter_cons, htm, Option.isSome_none, Bool.false_eq_true, if_false]
      rw [results_of_filter env rest, results_of_cons_none env tc rest htm]
    | some tool =>
      simp only [List.filter_cons, htm, Option.isSome_some, if_true]
      rw [results_of_cons_some env tc _ tool htm, results_of_filter env rest,
        results_of_cons_some env tc rest tool htm]

/-- C7: in both dispatch modes a request naming an unregistered tool is
silently skipped — the batch behaves exactly as if the request were absent
(same outcome and same hook trace), no error is raised for it, and with
fault-free hooks the result sequence holds exactly one entry per resolved
request, in request order. -/
theorem unregistered_skipped (env : Agent) (tcs : List ToolCall)
    (hhooks : hooks_ok env) :
    execute_tools_sequential_traced env tcs =
      execute_tools_sequential_traced env
        (tcs.filter (fun c => (tool_map env c.function.name).isSome)) ∧
    execute_tools_concurrent_traced env tcs =
      execute_tools_concurrent_traced env
        (tcs.filter (fun c => (tool_map env c.function.name).isSome)) ∧
    ∃ rs, execute_tools_sequential env tcs = Except.ok rs ∧
      execute_tools_concurrent env tcs = Except.ok rs ∧
      rs.map (fun r => r.tool_call_id) =
        (tcs.filter (fun c => (tool_map env c.function.name).isSome)).map
          (fun c => c.id) := by
  refine ⟨sequential_traced_skip env tcs, ?_, results_of env tcs,
    sequential_hooks_ok env hhooks tcs, concurrent_hooks_ok env hhooks tcs, ?_⟩
  · simp only [execute_tools_concurrent_traced, gather_traced, resolved_pairs_filter]
  · rw [← results_of_filter env tcs]
    apply results_of_ids
    intro c hc
    exact (List.mem_filter.mp hc).2

theorem unregistered_skipped_witness :
    execute_tools_sequential_traced envTools [tcTime, tcUnknown, tcBoom] =
      execute_tools_sequential_traced envTools
        ([tcTime, tcUnknown, tcBoom].filter
          (fun c => (tool_map envTools c.function.name).isSome)) ∧
    execute_tools_concurrent_traced envTools [tcTime, tcUnknown, tcBoom] =
      execute_tools_concurrent_traced envTools
        ([tcTime, tcUnknown, tcBoom].filter
          (fun c => (tool_map envTools c.function.name).isSome)) ∧
    ∃ rs, execute_tools_sequential envTools [tcTime, tcUnknown, tcBoom] = Except.ok rs ∧
      execute_tools_concurrent envTools [tcTime, tcUnknown, tcBoom] = Except.ok rs ∧
      rs.map (fun r => r.tool_call_id) =
        ([tcTime, tcUnknown, tcBoom].filter
          (fun c => (tool_map envTools c.function.name).isSome)).map (fun c => c.id) :=
  unregistered_skipped envTools [tcTime, tcUnknown, tcBoom] (fun _ => rfl)

/-- C4 counterexample: the claim says a hook fault is never converted into a
ToolResult for any tool-level event.  With an agent whose
`on_function_call_end` hook faults, `_execute_tool` on a succeeding tool
returns a ToolResult whose value is the hook error's description — the hook
fault was caught by the `try/except` and converted, so the claim as stated
is false. -/
theorem hook_end_fault_converted :
    envHookEndFault.trigger HookEvent.on_function_call_end = Except.error "end hook boom" ∧
    execute_tool envHookEndFault timeTool tcTime =
      Except.ok { tool_call_id := "call_1", name := "get_current_time",
                  result := "end hook boom" } := ⟨rfl, rfl⟩

/-- C4 amended: a fault of `on_function_call_start` propagates out of
`_execute_tool` uncaught, and a fault of `on_function_call_error` raised
while handling a failed invocation propagates as well; but a fault of
`on_function_call_end` is caught by `_execute_tool`'s exception handler and
converted into a ToolResult carrying the hook error's description (after
firing `on_function_call_error`). -/
theorem hook_fault_propagation :
    (∀ (env : Agent) (tool : Tool) (tc : ToolCall) (e : String),
      env.trigger HookEvent.on_function_call_start = Except.error e →
      execute_tool env tool tc = Except.error e) ∧
    (∀ (env : Agent) (tool : Tool) (tc : ToolCall) (e e2 : String),
      env.trigger HookEvent.on_function_call_start = Except.ok () →
      tool_attempt env tool tc = Except.error e →
      env.trigger HookEvent.on_function_call_error = Except.error e2 →
      execute_tool env tool tc = Except.error e2) ∧
    (∀ (env : Agent) (tool : Tool) (tc : ToolCall) (v e : String),
      env.trigger HookEvent.on_function_call_start = Except.ok () →
      tool_attempt env tool tc = Except.ok v →
      env.trigger HookEvent.on_function_call_end = Except.error e →
      env.trigger HookEvent.on_function_call_error = Except.ok () →
      execute_tool env tool tc =
        Except.ok { tool_call_id := tc.id, name := tc.function.name, result := e }) := by
  refine ⟨?_, ?_, ?_⟩
  · intro env tool tc e hstart
    unfold execute_tool execute_tool_traced
    rw [hstart]
  · intro env tool tc e e2 hstart hfail herr
    unfold execute_tool execute_tool_traced
    rw [hstart, hfail, herr]
  · intro env tool tc v e hstart hattempt hend herr
    unfold execute_tool execute_tool_traced
    rw [hstart, hattempt, hend, herr]

theorem hook_fault_propagation_witness :
    execute_tool envStartFault timeTool tcTime = Except.error "start hook boom" ∧
    execute_tool envErrHookFault failTool tcBoom = Except.error "error hook boom" ∧
    execute_tool envHookEndFault timeTool tcTime =
      Except.ok { tool_call_id := "call_1", name := "get_current_time",
                  result := "end hook boom" } :=
  ⟨hook_fault_propagation.1 envStartFault timeTool tcTime "start hook boom" rfl,
   hook_fault_propagation.2.1 envErrHookFault failTool tcBoom
     "division by zero" "error hook boom" rfl rfl rfl,
   hook_fault_propagation.2.2 envHookEndFault timeTool tcTime
     "12:00:00" "end hook boom" rfl rfl rfl rfl⟩

theorem arg_get_cons (a b : String) (t : List (String × String)) (k' : String) :
    arg_get ((a, b) :: t) k' = if a == k' then some b else arg_get t k' := by
  simp only [arg_get, List.find?_cons]
  cases h : (a == k') <;> simp [h]

theorem arg_get_map_set_other (k v k' : String) (hk : k' ≠ k) :
    ∀ m : List (String × String),
    arg_get (m.map (fun p => if p.1 == k then (k, v) else p)) k' = arg_get m k'
  | [] => rfl
  | (a, b) :: t => by
    simp only [List.map_cons]
    cases hak : (a == k) with
    | true =>
      have hae : a = k := by simpa using hak
      have h1 : (k == k') = false := beq_eq_false_iff_ne.mpr (fun h => hk h.symm)
      have h2 : (a == k') = false := by rw [hae]; exact h1
      simp only [hak, if_true, arg_get_cons, h1, h2, if_false]
      exact arg_get_map_set_other k v k' hk t
    | false =>
      simp only [hak, Bool.false_eq_true, if_false, arg_get_cons]
      cases hak' : (a == k') with
      | true => simp
      | false => simp only [Bool.false_eq_true, if_false]
                 exact arg_get_map_set_other k v k' hk t

theorem arg_get_map_set_self (k v : String) :
    ∀ m : List (String × String), m.any (fun p => p.1 == k) = true →
    arg_get (m.map (fun p => if p.1 == k then (k, v) else p)) k = some v
  | [], h => by simp at h
  | (a, b) :: t, h => by
    simp only [List.map_cons]
    cases hak : (a == k) with
    | true => simp [hak, arg_get_cons]
    | false =>
      have ht : t.any (fun p => p.1 == k) = true := by
        simp only [List.any_cons, hak, Bool.false_or] at h
        exact h
      simp only [hak, Bool.false_eq_true, if_false, arg_get_cons]
      exact arg_get_map_set_self k v t ht

theorem arg_get_append_single (m : List (String × String)) (k v k' : String) :
    m.any (fun p => p.1 == k) = false →
    arg_get (m ++ [(k, v)]) k' = if k' = k then some v else arg_get m k' := by
  induction m with
  | nil =>
    intro _
    by_cases hk : k' = k
    · rw [if_pos hk, List.nil_append, arg_get_cons,
        if_pos (beq_iff_eq.mpr hk.symm)]
    · rw [if_neg hk, List.nil_append, arg_get_cons,
        if_neg (by simp [beq_eq_false_iff_ne.mpr (fun h => hk h.symm)])]
  | cons p t ih =>
    rcases p with ⟨a, b⟩
    intro h
    simp only [List.any_cons, Bool.or_eq_false_iff] at h
    simp only [List.cons_append, arg_get_cons]
    cases hak' : (a == k') with
    | true =>
      have h1 : a = k' := by simpa using hak'
      have h2 : a ≠ k := beq_eq_false_iff_ne.mp h.1
      have hkk : k' ≠ k := fun he => h2 (h1.trans he)
      simp [hkk]
    | false =>
      simp only [Bool.false_eq_true, if_false]
      exact ih h.2

theorem arg_get_dict_set (m : List (String × String)) (k v k' : String) :
    arg_get (dict_set m k v) k' = if k' = k then some v else arg_get m k' := by
  unfold dict_set
  cases hany : m.any (fun p => p.1 == k) with
  | true =>
    simp only [if_true]
    by_cases hk : k' = k
    · rw [if_pos hk, hk, arg_get_map_set_self k v m hany]
    · rw [if_neg hk, arg_get_map_set_other k v k' hk m]
  | false =>
    simp only [Bool.false_eq_true, if_false]
    exact arg_get_append_single m k v k' hany

/-- C10: for a resolved tool invocation whose arguments decode, the mapping
passed to the tool's callable is exactly the decoded arguments overridden
with the agent's own `user_id`, `chat_id` and `agent_name`: whatever the
model put under those keys, the callable observes the agent's contextual
values. -/
theorem context_ids_override (env : Agent) (tool : Tool) (tc : ToolCall)
    (args : List (String × String))
    (hdecode : decode_arguments env.jsonLoads tc.function.arguments = Except.ok args) :
    tool_attempt env tool tc = tool.func (merge_args env args) ∧
    arg_get (merge_args env args) "user_id" = some env.user_id ∧
    arg_get (merge_args env args) "chat_id" = some env.chat_id ∧
    arg_get (merge_args env args) "agent_name" = some env.agent_name := by
  refine ⟨?_, ?_, ?_, ?_⟩
  · unfold tool_attempt
    rw [hdecode]
    rfl
  · unfold merge_args
    rw [arg_get_dict_set, if_neg (by decide), arg_get_dict_set, if_neg (by decide),
      arg_get_dict_set, if_pos rfl]
  · unfold merge_args
    rw [arg_get_dict_set, if_neg (by decide), arg_get_dict_set, if_pos rfl]
  · unfold merge_args
    rw [arg_get_dict_set, if_pos rfl]

theorem context_ids_override_witness :
    tool_attempt envTools timeTool tcSpoof =
      timeTool.func (merge_args envTools
        [("user_id", "evil"), ("chat_id", "evil2"), ("agent_name", "evil3"),
         ("city", "Tokyo")]) ∧
    arg_get (merge_args envTools
        [("user_id", "evil"), ("chat_id", "evil2"), ("agent_name", "evil3"),
         ("city", "Tokyo")]) "user_id" = some "test_user" ∧
    arg_get (merge_args envTools
        [("user_id", "evil"), ("chat_id", "evil2"), ("agent_name", "evil3"),
         ("city", "Tokyo")]) "chat_id" = some "test_chat" ∧
    arg_get (merge_args envTools
        [("user_id", "evil"), ("chat_id", "evil2"), ("agent_name", "evil3"),
         ("city", "Tokyo")]) "agent_name" = some "Test_Agent" :=
  context_ids_override envTools timeTool tcSpoof
    [("user_id", "evil"), ("chat_id", "evil2"), ("agent_name", "evil3"),
     ("city", "Tokyo")] rfl

theorem validate_entries_error : ∀ hist : List Entry,
    (∃ en ∈ hist, bad_entry en = true) →
    ∃ e, validate_entries hist = Except.error e ∧
      (e = "History messages must be dictionaries" ∨
       e = "History messages must have 'role' field" ∨
       e = "History messages must have 'content' field")
  | [], h => absurd h (by simp)
  | Entry.notDict :: _, _ =>
    ⟨"History messages must be dictionaries", rfl, Or.inl rfl⟩
  | Entry.dict d :: rest, h => by
    cases hrole : (dget d "role").isNone with
    | true =>
      refine ⟨"History messages must have 'role' field", ?_, Or.inr (Or.inl rfl)⟩
      simp [validate_entries, hrole]
    | false =>
      cases hcontent : (dget d "content").isNone with
      | true =>
        refine ⟨"History messages must have 'content' field", ?_, Or.inr (Or.inr rfl)⟩
        simp [validate_entries, hrole, hcontent]
      | false =>
        have hgood : bad_entry (Entry.dict d) = false := by
          simp [bad_entry, hrole, hcontent]
        have htail : ∃ en ∈ rest, bad_entry en = true := by
          rcases h with ⟨en, hmem, hbad⟩
          rcases List.mem_cons.mp hmem with he | he
          · rw [he] at hbad
            rw [hgood] at hbad
            cases hbad
          · exact ⟨en, he, hbad⟩
        rcases validate_entries_error rest htail with ⟨e, herr, hmsg⟩
        refine ⟨e, ?_, hmsg⟩
        simp [validate_entries, hrole, hcontent, herr, Except.map]

/-- C3: a supplied prior history containing an entry that is not a mapping,
or lacks `role` or `content`, makes `send_message` raise a validation error;
the agent state is returned unchanged — in particular no model-backend call
was counted and nothing was appended to the history store. -/
theorem malformed_history_rejected (env : Agent) (message : String)
    (hist : List Entry) (st0 : AState)
    (honerr : env.trigger HookEvent.on_error = Except.ok ())
    (hbad : ∃ en ∈ hist, bad_entry en = true) :
    ∃ e, send_message env message (some hist) st0 = (st0, Except.error e) ∧
      (e = "History messages must be dictionaries" ∨
       e = "History messages must have 'role' field" ∨
       e = "History messages must have 'content' field") := by
  rcases validate_entries_error hist hbad with ⟨e, herr, hmsg⟩
  refine ⟨e, ?_, hmsg⟩
  simp only [send_message, validate_history, herr, honerr]

theorem malformed_history_rejected_witness :
    ∃ e, send_message baseAgent "hi" (some histMissingContent)
        { message_history := [], backendCalls := 0, checkpoint := 0 } =
      ({ message_history := [], backendCalls := 0, checkpoint := 0 }, Except.error e) ∧
      (e = "History messages must be dictionaries" ∨
       e = "History messages must have 'role' field" ∨
       e = "History messages must have 'content' field") :=
  malformed_history_rejected baseAgent "hi" histMissingContent
    { message_history := [], backendCalls := 0, checkpoint := 0 } rfl
    ⟨Entry.dict [("role", V.vStr "user")], by simp [histMissingContent], rfl⟩

/-- C8: `_prepare_messages` returns the system message first unless the
history is non-empty and already starts with a `system` entry, then the full
history in order, then the new user message unless the last history entry's
`content` already equals it (for history entries carrying `role` and
`content`, as every validated entry does). -/
theorem prepare_messages_spec (sp message : String) (history : List PyDict)
    (hwf : ∀ d ∈ history, (dget d "role").isSome = true ∧ (dget d "content").isSome = true) :
    prepare_messages sp message history =
      Except.ok (
        (match history.head? with
         | none => [mkSystem sp]
         | some h0 => if dget h0 "role" = some (V.vStr "system") then [] else [mkSystem sp])
        ++ history ++
        (match history.getLast? with
         | none => [mkUser message]
         | some hl => if dget hl "content" = some (V.vStr message) then [] else [mkUser message])) := by
  cases history with
  | nil => rfl
  | cons h0 t =>
    have hh0 := hwf h0 (List.mem_cons_self h0 t)
    rcases Option.isSome_iff_exists.mp hh0.1 with ⟨r, hr⟩
    have hlast : (h0 :: t).getLast? = some ((h0 :: t).getLast (by simp)) :=
      List.getLast?_eq_getLast (h0 :: t) (by simp)
    set hl := (h0 :: t).getLast (by simp) with hhl
    have hlmem : hl ∈ h0 :: t := List.getLast_mem (by simp)
    rcases Option.isSome_iff_exists.mp (hwf hl hlmem).2 with ⟨c, hc⟩
    have hbind : ∀ (α β : Type) (a : α) (f : α → Except String β),
        (Except.ok a >>= f) = f a := fun _ _ _ _ => rfl
    simp only [prepare_messages, List.head?_cons, hlast, dict_item, hr, hc]
    by_cases hsys : r = V.vStr "system"
    · by_cases hmsg : c = V.vStr message
      · simp [hbind, hsys, hmsg]
        rfl
      · simp [hbind, hsys, hmsg]
        rfl
    · by_cases hmsg : c = V.vStr message
      · simp [hbind, hsys, hmsg]
        rfl
      · simp [hbind, hsys, hmsg]
        rfl

theorem prepare_messages_spec_witness :
    prepare_messages "SP" "hello" [mkSystem "S0", mkUser "hello"] =
      Except.ok [mkSystem "S0", mkUser "hello"] :=
  prepare_messages_spec "SP" "hello" [mkSystem "S0", mkUser "hello"] (by decide)

/-- C9: the claim says both token counters return an integer.  They return
Python floats: `len(message) / 4` uses true division, so
`get_simple_token_count("hello")` is the float `1.25` (not an `int`, in
value or in type, despite the `-> int` annotation), and
`get_accurate_token_count` on the character-length fallback path — no exact
tokenizer available — returns the same float. -/
theorem token_count_returns_float :
    get_simple_token_count "hello" = PyNum.float ((5 : Rat) / 4) ∧
    (get_simple_token_count "hello").isInt = false ∧
    get_accurate_token_count tkUnavailable "hello" "gpt-unknown" =
      PyNum.float ((5 : Rat) / 4) ∧
    (get_accurate_token_count tkUnavailable "hello" "gpt-unknown").isInt = false := by
  refine ⟨?_, rfl, ?_, rfl⟩ <;>
  · simp only [get_simple_token_count, get_accurate_token_count, tkUnavailable,
      show ("hello".length) = 5 from rfl]
    norm_num

/-- C5: when the backend reply carries tool calls and a stop is requested
after the model call returns (first suspension point reads a clear flag) but
before tool dispatch begins (second suspension point reads the flag set),
`send_message` returns — without raising — a TurnResult whose stop_reason
is `manual_stop` and whose history holds the user message and the
tool-call-bearing assistant reply but no tool messages. -/
theorem manual_stop_before_dispatch (env : Agent) (message : String) (reply : ModelReply)
    (hhooks : hooks_ok env)
    (hreplies : env.replies = [Except.ok reply])
    (htc : reply.tool_calls ≠ [])
    (hstop0 : env.stopFlag 0 = false)
    (hstop1 : env.stopFlag 1 = true) :
    ∃ st tr, send_message env message none
        { message_history := [], backendCalls := 0, checkpoint := 0 } =
        (st, Except.ok tr) ∧
      tr.stop_reason = "manual_stop" ∧
      tr.messages = [mkUser message, mkAssistant reply.content reply.tool_calls] ∧
      dget (mkAssistant reply.content reply.tool_calls) "tool_calls" =
        some (V.vCalls reply.tool_calls) ∧
      ∀ m ∈ tr.messages, dget m "role" ≠ some (V.vStr "tool") := by
  have hne : reply.tool_calls.isEmpty = false := by
    cases h : reply.tool_calls with
    | nil => exact absurd h htc
    | cons a l => rfl
  have hdisp : (if env.execute_function_concurrently then
        execute_tools_concurrent env reply.tool_calls
      else execute_tools_sequential env reply.tool_calls) =
      Except.ok (results_of env reply.tool_calls) := by
    cases env.execute_function_concurrently with
    | true =>
      simp only [if_true]
      exact concurrent_hooks_ok env hhooks reply.tool_calls
    | false =>
      simp only [Bool.false_eq_true, if_false]
      exact sequential_hooks_ok env hhooks reply.tool_calls
  have hrole : dget (mkUser message) "role" = some (V.vStr "user") := rfl
  have hcont : dget (mkUser message) "content" = some (V.vStr message) := rfl
  have hbind : ∀ (α β : Type) (a : α) (f : α → Except String β),
      (Except.ok a >>= f) = f a := fun _ _ _ _ => rfl
  have hprep : prepare_messages env.system_prompt message [mkUser message] =
      Except.ok [mkSystem env.system_prompt, mkUser message] := by
    simp only [prepare_messages, List.getLast?_singleton, dict_item, hrole, hcont, hbind]
    rw [if_pos (show V.vStr "user" ≠ V.vStr "system" by decide),
      if_neg (show ¬ V.vStr message ≠ V.vStr message from fun h => h rfl)]
    rfl
  have hsend : send_message env message none
      { message_history := [], backendCalls := 0, checkpoint := 0 } =
      ({ message_history :=
           [mkUser message, mkAssistant reply.content reply.tool_calls],
         backendCalls := 1, checkpoint := 2 },
       Except.ok (format_response env
         { message_history :=
             [mkUser message, mkAssistant reply.content reply.tool_calls],
           backendCalls := 1, checkpoint := 2 } (some reply) "manual_stop")) := by
    simp only [send_message, validate_history, List.nil_append,
      hhooks HookEvent.on_before_request, hprep, hreplies, run_loop, stop_check,
      hstop0, hstop1, hne, hdisp, Nat.zero_add, Bool.false_eq_true, if_false,
      if_true, List.cons_append]
  refine ⟨_, _, hsend, rfl, rfl, ?_, ?_⟩
  · simp [mkAssistant, hne, dget]
  · intro m hm
    rcases List.mem_cons.mp hm with rfl | hm2
    · simp [mkUser, dget]
    · rcases List.mem_singleton.mp hm2 with rfl
      simp [mkAssistant, hne, dget]

theorem manual_stop_before_dispatch_witness :
    ∃ st tr, send_message envC5 "What time is it?" none
        { message_history := [], backendCalls := 0, checkpoint := 0 } =
        (st, Except.ok tr) ∧
      tr.stop_reason = "manual_stop" ∧
      tr.messages = [mkUser "What time is it?",
        mkAssistant (some "let me check") [tcTime]] ∧
      dget (mkAssistant (some "let me check") [tcTime]) "tool_calls" =
        some (V.vCalls [tcTime]) ∧
      ∀ m ∈ tr.messages, dget m "role" ≠ some (V.vStr "tool") :=
  manual_stop_before_dispatch envC5 "What time is it?"
    { content := some "let me check", tool_calls := [tcTime], usage := "usage_blob" }
    (fun _ => rfl) rfl (by decide) rfl rfl
